import Mathlib

/-!
Verification of the provider-adapter / merge layer of the basketball
fixtures app. The definitions below are a shallow embedding of
`src/services/euroleagueApi.ts` and `src/services/geniusSportsApi.ts`:
pure transformation logic is translated function by function; the
browser-supplied boundaries (HTTP fetch, DOMParser queries, the system
clock and timezone) are modelled as explicit inputs. JavaScript numbers
that can be `NaN` are modelled by `JSNum`; machine time is epoch
milliseconds (`Int`); the environment's local timezone is an explicit
offset in minutes east of UTC.
-/

namespace SBL

/-- Match lifecycle status, from `types.ts` (`MatchStatus`). -/
inductive MatchStatus where
  | scheduled
  | live
  | completed
deriving DecidableEq, Repr

/-- A JavaScript number restricted to the integral values the adapters
produce: either an integer or `NaN` (e.g. from `parseInt` on a
non-numeric string). -/
inductive JSNum where
  | int (n : Int)
  | nan
deriving DecidableEq, Repr

/-- Canonical `Team` entity from `types.ts`. -/
structure Team where
  id : String
  name : String
  shortName : String
  logo : Option String := none
deriving DecidableEq, Repr

/-- Canonical `Match` entity from `types.ts`. `homeScore`/`awayScore`
are `none` when the field is absent (`undefined`). -/
structure Match where
  id : String
  homeTeam : Team
  awayTeam : Team
  homeScore : Option JSNum
  awayScore : Option JSNum
  date : String
  time : String
  venue : String
  status : MatchStatus
deriving DecidableEq, Repr

/-- Canonical `StandingsEntry` entity from `types.ts`. -/
structure StandingsEntry where
  position : Int
  team : Team
  played : Int
  won : Int
  lost : Int
  pointsFor : Int
  pointsAgainst : Int
  pointsDifference : Int
  points : Int
deriving DecidableEq, Repr

/-- Runtime environment of the adapters: the local timezone offset
(minutes east of UTC, so UTC+2 is `120`) and the current time
(epoch milliseconds), standing for `new Date()`. -/
structure Ctx where
  tz : Int
  now : Int
deriving DecidableEq, Repr

/-! ## JavaScript string primitives -/

/-- Whitespace for `String.prototype.trim`; includes the non-breaking
space (U+00A0), which JS treats as trimmable whitespace. -/
def jsIsWhitespace (c : Char) : Bool :=
  c = ' ' || c = '\t' || c = '\n' || c = '\r' ||
  c.toNat = 11 || c.toNat = 12 || c.toNat = 0xA0 || c.toNat = 0xFEFF ||
  c.toNat = 0x2028 || c.toNat = 0x2029

/-- `String.prototype.trim`. -/
def jsTrim (s : String) : String :=
  ⟨((s.data.dropWhile jsIsWhitespace).reverse.dropWhile jsIsWhitespace).reverse⟩

/-- Value of a list of decimal digit characters. -/
def digitsToNat (cs : List Char) : Nat :=
  cs.foldl (fun n c => n * 10 + (c.toNat - 48)) 0

/-- `parseInt(s, 10)`: skip leading whitespace, optional sign, then the
leading run of decimal digits; `NaN` when no digit is found. -/
def jsParseInt (s : String) : JSNum :=
  let cs := s.data.dropWhile jsIsWhitespace
  let core : List Char → JSNum := fun ds =>
    let digits := ds.takeWhile Char.isDigit
    if digits.isEmpty then JSNum.nan else JSNum.int (Int.ofNat (digitsToNat digits))
  match cs with
  | '-' :: rest =>
    (match core rest with
     | JSNum.int n => JSNum.int (-n)
     | JSNum.nan => JSNum.nan)
  | '+' :: rest => core rest
  | rest => core rest

/-- Split a character list at every space character (the semantics of
JS `split(' ')`: adjacent separators yield empty pieces, the empty
string yields one empty piece). -/
def splitOnSpace : List Char → List (List Char)
  | [] => [[]]
  | c :: rest =>
    let r := splitOnSpace rest
    if c = ' ' then [] :: r
    else (c :: r.headD []) :: r.tail

/-- `s.split(' ')`. -/
def jsSplitSpace (s : String) : List String :=
  (splitOnSpace s.data).map (fun cs => ⟨cs⟩)

/-- `s.includes(t)` (substring containment). -/
def containsSub (t : List Char) : List Char → Bool
  | [] => t.isEmpty
  | c :: rest => t.isPrefixOf (c :: rest) || containsSub t rest

/-- `String.prototype.includes`. -/
def jsIncludes (s t : String) : Bool :=
  containsSub t.data s.data

/-- First match of the regex `<pat>(\d+)`: at the first position where
`pat` is followed by at least one decimal digit, return the maximal
digit run (the capture group). -/
def findDigitsAfter (pat : List Char) : List Char → Option String
  | [] => none
  | c :: rest =>
    if pat.isPrefixOf (c :: rest) then
      let tail := (c :: rest).drop pat.length
      let ds := tail.takeWhile Char.isDigit
      if ds.isEmpty then findDigitsAfter pat rest else some ⟨ds⟩
    else findDigitsAfter pat rest

/-! ## Calendar arithmetic (proleptic Gregorian, as used by JS `Date`) -/

/-- Days since 1970-01-01 of a civil date (Howard Hinnant's algorithm). -/
def daysFromCivil (y m d : Int) : Int :=
  let yy := if m ≤ 2 then y - 1 else y
  let era := Int.fdiv yy 400
  let yoe := yy - era * 400
  let mp := Int.fmod (m + 9) 12
  let doy := Int.fdiv (153 * mp + 2) 5 + d - 1
  let doe := yoe * 365 + Int.fdiv yoe 4 - Int.fdiv yoe 100 + doy
  era * 146097 + doe - 719468

/-- Civil date `(year, month, day)` of a count of days since 1970-01-01. -/
def civilFromDays (z0 : Int) : Int × Int × Int :=
  let z := z0 + 719468
  let era := Int.fdiv z 146097
  let doe := z - era * 146097
  let yoe := Int.fdiv (doe - Int.fdiv doe 1460 + Int.fdiv doe 36524 - Int.fdiv doe 146096) 365
  let y := yoe + era * 400
  let doy := doe - (365 * yoe + Int.fdiv yoe 4 - Int.fdiv yoe 100)
  let mp := Int.fdiv (5 * doy + 2) 153
  let d := doy - Int.fdiv (153 * mp + 2) 5 + 1
  let m := mp + (if mp < 10 then 3 else -9)
  (y + (if m ≤ 2 then 1 else 0), m, d)

/-- Decimal digit character. -/
def digitChar (n : Nat) : Char := Char.ofNat (48 + n % 10)

/-- Two-digit zero-padded decimal rendering (for `0 ≤ n ≤ 99`). -/
def pad2 (n : Nat) : String := ⟨[digitChar (n / 10), digitChar n]⟩

/-- Four-digit zero-padded decimal rendering (for `0 ≤ n ≤ 9999`). -/
def pad4 (n : Nat) : String :=
  ⟨[digitChar (n / 1000), digitChar (n / 100), digitChar (n / 10), digitChar n]⟩

/-- The `YYYY-MM-DD` prefix of `Date.prototype.toISOString`, i.e. the
calendar date of epoch instant `t` rendered in UTC. -/
def formatUTCDate (t : Int) : String :=
  let c := civilFromDays (Int.fdiv t 86400000)
  pad4 c.1.toNat ++ "-" ++ pad2 c.2.1.toNat ++ "-" ++ pad2 c.2.2.toNat

/-- Spec-side definition (from the spec's words, for comparison with the
code): the ISO calendar date of the **local** wall-clock interpretation
of epoch instant `t` in a timezone `tz` minutes east of UTC. -/
def specLocalCalendarDate (tz t : Int) : String :=
  formatUTCDate (t + tz * 60000)

/-- `Date.prototype.getHours` (local time). -/
def jsGetHours (tz t : Int) : Int :=
  Int.fdiv (Int.fmod (t + tz * 60000) 86400000) 3600000

/-- `Date.prototype.getMinutes` (local time). -/
def jsGetMinutes (tz t : Int) : Int :=
  Int.fdiv (Int.fmod (t + tz * 60000) 3600000) 60000

/-! ## `new Date(string)` for the date shapes the feeds produce

The adapters feed `new Date(...)` three shapes: ISO-8601 timestamps
(V2 JSON feed and the adapters' own `YYYY-MM-DD` output), and free-text
`"Jan 30, 2026"` / `"Jan 30, 2026, 7:30 PM"` strings (V1 XML feed and
the Genius Sports markup). Per the ECMAScript date-time string format,
a date-only ISO string is interpreted as UTC midnight, an ISO date-time
without an offset designator as local time; the free-text forms are
interpreted as local time (V8 behaviour). Anything else is an
invalid date (`none`, standing for `NaN` / a thrown `RangeError` at
`toISOString`). -/

/-- Fields recognised in an ISO-8601 date or date-time string. -/
structure ISOParts where
  year : Int
  month : Int
  day : Int
  hasTime : Bool
  hour : Int
  minute : Int
  second : Int
  msec : Int
  utcOffset : Option Int
deriving DecidableEq, Repr

/-- Milliseconds from a fractional-seconds digit run (`.5` is 500ms). -/
def msOfFrac (frac : List Char) : Nat :=
  digitsToNat ((frac ++ ['0', '0', '0']).take 3)

/-- Optional `:SS[.mmm]` part of an ISO time. -/
def parseISOSeconds : List Char → Option (Nat × Nat × List Char)
  | ':' :: s1 :: s2 :: rest =>
    if s1.isDigit && s2.isDigit then
      match rest with
      | '.' :: rest2 =>
        let frac := rest2.takeWhile Char.isDigit
        let rest3 := rest2.dropWhile Char.isDigit
        if frac.isEmpty then none
        else some (digitsToNat [s1, s2], msOfFrac frac, rest3)
      | _ => some (digitsToNat [s1, s2], 0, rest)
    else none
  | ':' :: _ => none
  | rest => some (0, 0, rest)

/-- Trailing offset designator: empty (local), `Z`, or `±HH:MM`. -/
def parseISOOffset : List Char → Option (Option Int)
  | [] => some none
  | ['Z'] => some (some 0)
  | '+' :: h1 :: h2 :: ':' :: m1 :: m2 :: [] =>
    if [h1, h2, m1, m2].all Char.isDigit then
      some (some (Int.ofNat (digitsToNat [h1, h2] * 60 + digitsToNat [m1, m2])))
    else none
  | '-' :: h1 :: h2 :: ':' :: m1 :: m2 :: [] =>
    if [h1, h2, m1, m2].all Char.isDigit then
      some (some (-(Int.ofNat (digitsToNat [h1, h2] * 60 + digitsToNat [m1, m2]))))
    else none
  | _ => none

/-- Parse an ISO-8601 `YYYY-MM-DD[THH:MM[:SS[.mmm]][Z|±HH:MM]]` string. -/
def parseISOString (s : String) : Option ISOParts :=
  match s.data with
  | y1 :: y2 :: y3 :: y4 :: '-' :: mo1 :: mo2 :: '-' :: d1 :: d2 :: rest =>
    if [y1, y2, y3, y4, mo1, mo2, d1, d2].all Char.isDigit then
      let y : Int := Int.ofNat (digitsToNat [y1, y2, y3, y4])
      let mo : Int := Int.ofNat (digitsToNat [mo1, mo2])
      let d : Int := Int.ofNat (digitsToNat [d1, d2])
      if 1 ≤ mo ∧ mo ≤ 12 ∧ 1 ≤ d ∧ d ≤ 31 then
        match rest with
        | [] => some ⟨y, mo, d, false, 0, 0, 0, 0, none⟩
        | 'T' :: h1 :: h2 :: ':' :: mi1 :: mi2 :: rest2 =>
          if [h1, h2, mi1, mi2].all Char.isDigit then
            match parseISOSeconds rest2 with
            | none => none
            | some (ss, ms, rest3) =>
              match parseISOOffset rest3 with
              | none => none
              | some off =>
                let hh : Int := Int.ofNat (digitsToNat [h1, h2])
                let mi : Int := Int.ofNat (digitsToNat [mi1, mi2])
                if hh ≤ 23 ∧ mi ≤ 59 ∧ ss ≤ 59 then
                  some ⟨y, mo, d, true, hh, mi, Int.ofNat ss, Int.ofNat ms, off⟩
                else none
          else none
        | _ => none
      else none
    else none
  | _ => none

/-- English month abbreviation to month number. -/
def monthFromName (s : String) : Option Int :=
  [("Jan", (1 : Int)), ("Feb", 2), ("Mar", 3), ("Apr", 4), ("May", 5), ("Jun", 6),
   ("Jul", 7), ("Aug", 8), ("Sep", 9), ("Oct", 10), ("Nov", 11), ("Dec", 12)].lookup s

/-- `H:MM`, `HH:MM`, or 12-hour `H:MM AM/PM` clock time. -/
def parseUSTime (cs : List Char) : Option (Int × Int) :=
  let hDigits := cs.takeWhile Char.isDigit
  let rest := cs.dropWhile Char.isDigit
  if hDigits.isEmpty || hDigits.length > 2 then none else
  match rest with
  | ':' :: m1 :: m2 :: rest2 =>
    if m1.isDigit && m2.isDigit then
      let h := digitsToNat hDigits
      let mi := digitsToNat [m1, m2]
      if mi ≤ 59 then
        match rest2 with
        | [] => if h ≤ 23 then some (Int.ofNat h, Int.ofNat mi) else none
        | [' ', 'A', 'M'] =>
          if 1 ≤ h ∧ h ≤ 12 then some (Int.ofNat (if h = 12 then 0 else h), Int.ofNat mi) else none
        | [' ', 'P', 'M'] =>
          if 1 ≤ h ∧ h ≤ 12 then some (Int.ofNat (if h = 12 then 12 else h + 12), Int.ofNat mi) else none
        | _ => none
      else none
    else none
  | _ => none

/-- Free-text `"Mon D, YYYY"` or `"Mon D, YYYY, H:MM [AM|PM]"` date,
interpreted as local wall-clock time; yields `(y, m, d, hh, mi)`. -/
def parseUSDateTime (s : String) : Option (Int × Int × Int × Int × Int) :=
  match s.data with
  | c1 :: c2 :: c3 :: ' ' :: rest =>
    match monthFromName ⟨[c1, c2, c3]⟩ with
    | none => none
    | some mo =>
      let dayDigits := rest.takeWhile Char.isDigit
      let rest2 := rest.dropWhile Char.isDigit
      if dayDigits.isEmpty || dayDigits.length > 2 then none else
      match rest2 with
      | ',' :: ' ' :: y1 :: y2 :: y3 :: y4 :: rest3 =>
        if [y1, y2, y3, y4].all Char.isDigit then
          let y : Int := Int.ofNat (digitsToNat [y1, y2, y3, y4])
          let d : Int := Int.ofNat (digitsToNat dayDigits)
          if 1 ≤ d ∧ d ≤ 31 then
            match rest3 with
            | [] => some (y, mo, d, 0, 0)
            | ',' :: ' ' :: rest4 =>
              (parseUSTime rest4).map (fun hm => (y, mo, d, hm.1, hm.2))
            | _ => none
          else none
        else none
      | _ => none
  | _ => none

/-- `new Date(s).getTime()` in an environment whose local timezone is
`tz` minutes east of UTC; `none` is an invalid date. -/
def jsNewDate (tz : Int) (s : String) : Option Int :=
  match parseISOString s with
  | some p =>
    let base := daysFromCivil p.year p.month p.day * 86400000 +
      p.hour * 3600000 + p.minute * 60000 + p.second * 1000 + p.msec
    match p.utcOffset with
    | some off => some (base - off * 60000)
    | none => if p.hasTime then some (base - tz * 60000) else some base
  | none =>
    match parseUSDateTime s with
    | some (y, mo, d, hh, mi) =>
      some (daysFromCivil y mo d * 86400000 + hh * 3600000 + mi * 60000 - tz * 60000)
    | none => none

namespace EuroleagueApi

/-- `APIError` from `euroleagueApi.ts`: message plus optional HTTP status. -/
structure APIError where
  message : String
  statusCode : Option Int
deriving DecidableEq, Repr

/-- A `<game>` element of the V1 XML results feed, as seen through
`getElementText`: each field is the text content of the child element of
that tag name, `none` when the element is missing. -/
structure GameXmlEl where
  gamecode : Option String := none
  round : Option String := none
  gameday : Option String := none
  date : Option String := none
  time : Option String := none
  hometeam : Option String := none
  homecode : Option String := none
  homescore : Option String := none
  awayteam : Option String := none
  awaycode : Option String := none
  awayscore : Option String := none
  played : Option String := none
deriving DecidableEq, Repr

/-- A `<team>` element of the V1 XML standings feed (same convention). -/
structure TeamXmlEl where
  name : Option String := none
  code : Option String := none
  ranking : Option String := none
  totalgames : Option String := none
  wins : Option String := none
  losses : Option String := none
  ptsfavour : Option String := none
  ptsagainst : Option String := none
  difference : Option String := none
deriving DecidableEq, Repr

/-- `getElementText`: `parent.querySelector(tag)?.textContent?.trim() || ''`. -/
def getElementText (field : Option String) : String :=
  match field with
  | none => ""
  | some s => jsTrim s

/-- `getElementNumber`: `parseInt` of the element text, `0` on `NaN`. -/
def getElementNumber (field : Option String) : Int :=
  match jsParseInt (getElementText field) with
  | JSNum.int n => n
  | JSNum.nan => 0

/-- `ParsedGame` record produced by `parseGamesXML`. -/
structure ParsedGame where
  gameCode : String
  round : String
  gameDay : Int
  date : String
  time : String
  homeTeam : String
  homeCode : String
  homeScore : Option JSNum
  awayTeam : String
  awayCode : String
  awayScore : Option JSNum
  played : Bool
deriving DecidableEq, Repr

/-- `parseGamesXML` over the document's `<game>` elements. -/
def parseGamesXML (gameElements : List GameXmlEl) : List ParsedGame :=
  gameElements.map fun gameEl =>
    let homeScoreText := getElementText gameEl.homescore
    let awayScoreText := getElementText gameEl.awayscore
    { gameCode := getElementText gameEl.gamecode
      round := getElementText gameEl.round
      gameDay := getElementNumber gameEl.gameday
      date := getElementText gameEl.date
      time := getElementText gameEl.time
      homeTeam := getElementText gameEl.hometeam
      homeCode := getElementText gameEl.homecode
      homeScore := if homeScoreText ≠ "" then some (jsParseInt homeScoreText) else none
      awayTeam := getElementText gameEl.awayteam
      awayCode := getElementText gameEl.awaycode
      awayScore := if awayScoreText ≠ "" then some (jsParseInt awayScoreText) else none
      played := getElementText gameEl.played = "true" }

/-- `ParsedStanding` record produced by `parseStandingsXML`. -/
structure ParsedStanding where
  name : String
  code : String
  ranking : Int
  totalGames : Int
  wins : Int
  losses : Int
  ptsFor : Int
  ptsAgainst : Int
  difference : Int
deriving DecidableEq, Repr

/-- `parseStandingsXML` over the document's `<team>` elements. -/
def parseStandingsXML (teamElements : List TeamXmlEl) : List ParsedStanding :=
  teamElements.map fun teamEl =>
    { name := getElementText teamEl.name
      code := getElementText teamEl.code
      ranking := getElementNumber teamEl.ranking
      totalGames := getElementNumber teamEl.totalgames
      wins := getElementNumber teamEl.wins
      losses := getElementNumber teamEl.losses
      ptsFor := getElementNumber teamEl.ptsfavour
      ptsAgainst := getElementNumber teamEl.ptsagainst
      difference := getElementNumber teamEl.difference }

/-- The static name-to-abbreviation table inside `getShortName`. -/
def shortNamesTable : List (String × String) :=
  [("Hapoel IBI Tel Aviv", "Hapoel TA"),
   ("AS Monaco", "Monaco"),
   ("Fenerbahce Beko Istanbul", "Fenerbahce"),
   ("Real Madrid", "Real Madrid"),
   ("FC Barcelona", "Barcelona"),
   ("Olympiacos Piraeus", "Olympiacos"),
   ("Panathinaikos AKTOR Athens", "Panathinaikos"),
   ("Anadolu Efes Istanbul", "Efes"),
   ("Maccabi Rapyd Tel Aviv", "Maccabi TA"),
   ("FC Bayern Munich", "Bayern"),
   ("Paris Basketball", "Paris"),
   ("LDLC ASVEL Villeurbanne", "ASVEL"),
   ("EA7 Emporio Armani Milan", "Milan"),
   ("Crvena Zvezda Meridianbet Belgrade", "Crvena Zvezda"),
   ("Partizan Mozzart Bet Belgrade", "Partizan"),
   ("Zalgiris Kaunas", "Zalgiris"),
   ("Virtus Bologna", "Virtus"),
   ("Valencia Basket", "Valencia"),
   ("Dubai Basketball", "Dubai"),
   ("Kosner Baskonia Vitoria-Gasteiz", "Baskonia")]

/-- `getShortName` of `euroleagueApi.ts`: table lookup, then the
comment's fallback "use first word or first two words if short". -/
def getShortName (name : String) : String :=
  let words := jsSplitSpace name
  let fallback :=
    if words.length = 1 then name
    else if (words.headD "").length ≤ 3 then (words.headD "") ++ " " ++ (words.getD 1 "")
    else words.headD ""
  match shortNamesTable.lookup name with
  | some v => if v = "" then fallback else v
  | none => fallback

/-- The inner `parseDate` of `transformParsedGame`: format the parsed
date via `toISOString` when valid, else return the original string. -/
def parseDate (tz : Int) (dateStr : String) : String :=
  match jsNewDate tz dateStr with
  | some t => formatUTCDate t
  | none => dateStr

/-- `transformParsedGame`: V1 XML game to canonical `Match`. -/
def transformParsedGame (ctx : Ctx) (game : ParsedGame) : Match :=
  let dateStr := parseDate ctx.tz game.date
  let isPast : Bool :=
    match jsNewDate ctx.tz dateStr with
    | some t => decide (t < ctx.now)
    | none => false
  { id := game.gameCode
    homeTeam :=
      { id := game.homeCode
        name := game.homeTeam
        shortName := getShortName game.homeTeam }
    awayTeam :=
      { id := game.awayCode
        name := game.awayTeam
        shortName := getShortName game.awayTeam }
    homeScore := game.homeScore
    awayScore := game.awayScore
    date := dateStr
    time := if game.time = "" then "TBC" else game.time
    venue := "TBC"
    status :=
      if game.played then MatchStatus.completed
      else if isPast then MatchStatus.completed
      else MatchStatus.scheduled }

/-- One side of a V2 JSON game. -/
structure V2Team where
  code : String
  name : String
  abbreviatedName : String
  score : Int
  crest : Option String := none
deriving DecidableEq, Repr

/-- A V2 JSON game record. -/
structure V2Game where
  id : String
  identifier : String
  code : Int
  date : String
  status : String
  home : V2Team
  away : V2Team
  venueName : Option String := none
deriving DecidableEq, Repr

/-- The V2 response envelope `{status, data}`. -/
structure V2Envelope where
  status : String
  data : List V2Game
deriving DecidableEq, Repr

/-- `transformV2Game`: V2 JSON game to canonical `Match`; `none` models
the `RangeError` thrown by `toISOString()` on an invalid date. -/
def transformV2Game (ctx : Ctx) (game : V2Game) : Option Match :=
  match jsNewDate ctx.tz game.date with
  | none => none
  | some t =>
    let dateStr := formatUTCDate t
    let timeStr := pad2 (jsGetHours ctx.tz t).toNat ++ ":" ++ pad2 (jsGetMinutes ctx.tz t).toNat
    let status := if game.status = "result" then MatchStatus.completed else MatchStatus.scheduled
    some
      { id := game.identifier
        homeTeam :=
          { id := game.home.code
            name := game.home.name
            shortName :=
              if game.home.abbreviatedName ≠ "" then game.home.abbreviatedName
              else getShortName game.home.name
            logo := game.home.crest }
        awayTeam :=
          { id := game.away.code
            name := game.away.name
            shortName :=
              if game.away.abbreviatedName ≠ "" then game.away.abbreviatedName
              else getShortName game.away.name
            logo := game.away.crest }
        homeScore := if status = MatchStatus.completed then some (JSNum.int game.home.score) else none
        awayScore := if status = MatchStatus.completed then some (JSNum.int game.away.score) else none
        date := dateStr
        time := timeStr
        venue :=
          match game.venueName with
          | some v => if v = "" then "TBC" else v
          | none => "TBC"
        status := status }

/-- `transformParsedStanding`: V1 XML standing to `StandingsEntry`;
the league points metric is derived as `wins * 2 + losses`. -/
def transformParsedStanding (standing : ParsedStanding) : StandingsEntry :=
  { position := standing.ranking
    team :=
      { id := standing.code
        name := standing.name
        shortName := getShortName standing.name }
    played := standing.totalGames
    won := standing.wins
    lost := standing.losses
    pointsFor := standing.ptsFor
    pointsAgainst := standing.ptsAgainst
    pointsDifference := standing.difference
    points := standing.wins * 2 + standing.losses }

/-! ### Fetch layer

The HTTP boundary is modelled by `NetResult`: either the `fetch` call
rejected (network failure) or it produced a response. XML bodies reach
the code through `DOMParser`, modelled as a function from the body text
to an `XMLDoc` (the parsed element lists plus the parser-reported
`parsererror` flag); JSON bodies reach it through `response.json()`,
modelled by `JsonBody`. -/

/-- Outcome of a `fetch(url)` call. -/
inductive NetResult (α : Type) where
  | failure (msg : String)
  | success (r : α)
deriving DecidableEq, Repr

/-- An HTTP response carrying a text body (V1 XML endpoints). -/
structure HttpTextResponse where
  ok : Bool
  status : Int
  statusText : String
  text : String
deriving DecidableEq, Repr

/-- A parsed XML document: the `parsererror` flag and the `<game>` /
`<team>` element lists the adapter queries. -/
structure XMLDoc where
  hasParseError : Bool
  games : List GameXmlEl
  teams : List TeamXmlEl
deriving DecidableEq, Repr

/-- An empty, well-formed XML document. -/
def emptyXMLDoc : XMLDoc := ⟨false, [], []⟩

/-- `fetchXMLFromEuroLeague`: network error, non-2xx status, empty body
and XML parse error each raise an `APIError`. -/
def fetchXMLFromEuroLeague (net : NetResult HttpTextResponse)
    (domParse : String → XMLDoc) : Except APIError XMLDoc :=
  match net with
  | NetResult.failure msg =>
    Except.error ⟨"EuroLeague API network error: " ++ msg, none⟩
  | NetResult.success r =>
    if !r.ok then
      Except.error ⟨"EuroLeague API request failed: " ++ toString r.status ++ " " ++ r.statusText,
        some r.status⟩
    else if jsTrim r.text = "" then
      Except.error ⟨"Empty response from EuroLeague API", none⟩
    else
      let doc := domParse r.text
      if doc.hasParseError then
        Except.error ⟨"Failed to parse XML from EuroLeague API", none⟩
      else Except.ok doc

/-- Result of `response.json()` on a V2 response: rejected promise
(invalid JSON), a `null`-ish body, or the typed envelope. -/
inductive JsonBody where
  | invalid (msg : String)
  | null
  | envelope (env : V2Envelope)
deriving DecidableEq, Repr

/-- An HTTP response carrying a JSON body (V2 endpoint). -/
structure HttpJsonResponse where
  ok : Bool
  status : Int
  statusText : String
  json : JsonBody
deriving DecidableEq, Repr

/-- Errors escaping `fetchJSONFromEuroLeagueV2`: the adapter's typed
`APIError`, or the untyped exception from a rejecting `response.json()`. -/
inductive FetchError where
  | apiError (message : String) (statusCode : Option Int)
  | jsonSyntaxError (msg : String)
deriving DecidableEq, Repr

/-- `fetchJSONFromEuroLeagueV2`: network error and non-2xx status raise
`APIError`; then the body is validated — `null` or a `status` other than
`"success"` raise `APIError` rather than returning the payload. -/
def fetchJSONFromEuroLeagueV2 (net : NetResult HttpJsonResponse) :
    Except FetchError V2Envelope :=
  match net with
  | NetResult.failure msg =>
    Except.error (FetchError.apiError ("EuroLeague V2 API network error: " ++ msg) none)
  | NetResult.success r =>
    if !r.ok then
      Except.error (FetchError.apiError
        ("EuroLeague V2 API request failed: " ++ toString r.status ++ " " ++ r.statusText)
        (some r.status))
    else
      match r.json with
      | JsonBody.invalid msg => Except.error (FetchError.jsonSyntaxError msg)
      | JsonBody.null =>
        Except.error (FetchError.apiError "Invalid response from EuroLeague V2 API" none)
      | JsonBody.envelope env =>
        if env.status ≠ "success" then
          Except.error (FetchError.apiError "Invalid response from EuroLeague V2 API" none)
        else Except.ok env

/-- `fetchCompletedMatches`: fetch + parse + transform of the V1 feed,
wrapped in `try/catch` — any failure is logged and an **empty list** is
returned. -/
def fetchCompletedMatches (ctx : Ctx) (net : NetResult HttpTextResponse)
    (domParse : String → XMLDoc) : List Match :=
  match fetchXMLFromEuroLeague net domParse with
  | Except.error _ => []
  | Except.ok doc => (parseGamesXML doc.games).map (transformParsedGame ctx)

/-- `fetchUpcomingMatches`: fetch + transform of the V2 feed, wrapped in
`try/catch` — any failure (including a `transformV2Game` throw on an
invalid date) yields an **empty list**. -/
def fetchUpcomingMatches (ctx : Ctx) (net : NetResult HttpJsonResponse) : List Match :=
  match fetchJSONFromEuroLeagueV2 net with
  | Except.error _ => []
  | Except.ok env =>
    match env.data.mapM (transformV2Game ctx) with
    | some ms => ms
    | none => []

/-! ### Merge engine of `fetchEuroLeagueMatches`

`Map<string, Match>` is modelled as an association list with JS `Map`
semantics: `set` replaces in place on an existing key and appends on a
new key, so iteration order is insertion order; `values()` is the list
of second components. -/

/-- `Map.prototype.set`. -/
def mapSet (k : String) (v : Match) : List (String × Match) → List (String × Match)
  | [] => [(k, v)]
  | e :: rest => if e.1 = k then (k, v) :: rest else e :: mapSet k v rest

/-- `Map.prototype.has`. -/
def mapHas (k : String) : List (String × Match) → Bool
  | [] => false
  | e :: rest => e.1 = k || mapHas k rest

/-- Association-list lookup (`Map.prototype.get`). -/
def mapGet (k : String) : List (String × Match) → Option Match
  | [] => none
  | e :: rest => if e.1 = k then some e.2 else mapGet k rest

/-- First loop of the merge: add completed matches, keyed by id. -/
def insertCompleted (acc : List (String × Match)) (ms : List Match) : List (String × Match) :=
  ms.foldl (fun acc m => mapSet m.id m acc) acc

/-- Second loop of the merge: add upcoming matches only when their id is
not already present. -/
def insertUpcoming (acc : List (String × Match)) (ms : List Match) : List (String × Match) :=
  ms.foldl (fun acc m => if mapHas m.id acc then acc else mapSet m.id m acc) acc

/-- The sort comparator of `fetchEuroLeagueMatches`:
`new Date(a.date).getTime() - new Date(b.date).getTime()`, with an
invalid date behaving as `NaN` (which `Array.prototype.sort` treats as
`0`, i.e. equal). -/
def sortCmp (tz : Int) (a b : Match) : Int :=
  match jsNewDate tz a.date, jsNewDate tz b.date with
  | some x, some y => x - y
  | _, _ => 0

/-- The merge + sort body of `fetchEuroLeagueMatches`, as a function of
the two already-fetched lists. -/
def fetchEuroLeagueMatchesFrom (tz : Int) (completedMatches upcomingMatches : List Match) :
    List Match :=
  let matchMap := insertUpcoming (insertCompleted [] completedMatches) upcomingMatches
  let allMatches := matchMap.map Prod.snd
  List.insertionSort (fun a b => sortCmp tz a b ≤ 0) allMatches

/-- `fetchEuroLeagueMatches`: fetch both feeds, merge with completed
matches first, sort by date ascending. -/
def fetchEuroLeagueMatches (ctx : Ctx) (netXml : NetResult HttpTextResponse)
    (domParse : String → XMLDoc) (netJson : NetResult HttpJsonResponse) : List Match :=
  fetchEuroLeagueMatchesFrom ctx.tz
    (fetchCompletedMatches ctx netXml domParse)
    (fetchUpcomingMatches ctx netJson)

/-- `fetchEuroLeagueStandings`: standings path (raises on fetch error). -/
def fetchEuroLeagueStandings (net : NetResult HttpTextResponse)
    (domParse : String → XMLDoc) : Except APIError (List StandingsEntry) :=
  match fetchXMLFromEuroLeague net domParse with
  | Except.error e => Except.error e
  | Except.ok doc =>
    let standings := parseStandingsXML doc.teams
    if standings.length = 0 then Except.ok []
    else Except.ok (List.insertionSort
      (fun a b => decide (a.position ≤ b.position)) (standings.map transformParsedStanding))

end EuroleagueApi

namespace GeniusSportsApi

/-- One team block of a `.match-wrap` element (`.home-team` or
`.away-team`), as seen through the query-selector chains of
`parseScheduleHTML`: each field is the text content (or attribute value)
of the queried descendant, `none` when the node is missing. -/
structure RawTeamEl where
  teamNameFull : Option String := none
  teamNameSpan : Option String := none
  teamName : Option String := none
  scoreText : Option String := none
  imgSrc : Option String := none
  linkHref : Option String := none
deriving DecidableEq, Repr

/-- A `.match-wrap` element of the schedule markup. -/
structure RawMatchEl where
  idAttr : Option String := none
  className : String := ""
  homeTeam : Option RawTeamEl := none
  awayTeam : Option RawTeamEl := none
  dateTimeText : Option String := none
  venueLink : Option String := none
  venueAnchor : Option String := none
deriving DecidableEq, Repr

/-- The static name-to-abbreviation table inside `getShortName`. -/
def shortNamesTable : List (String × String) :=
  [("London Lions", "Lions"),
   ("Cheshire Phoenix", "Phoenix"),
   ("B. Braun Sheffield Sharks", "Sharks"),
   ("B.Braun Sheffield Sharks", "Sharks"),
   ("Sheffield Sharks", "Sharks"),
   ("Bristol Flyers", "Flyers"),
   ("Manchester Basketball", "Manchester"),
   ("Leicester Riders", "Riders"),
   ("Newcastle Eagles", "Eagles"),
   ("Surrey 89ers", "89ers"),
   ("Caledonia Gladiators", "Gladiators")]

/-- `getShortName` of `geniusSportsApi.ts`:
`shortNames[name] || name.split(' ').pop() || name`. -/
def getShortName (name : String) : String :=
  let popped := (jsSplitSpace name).getLastD ""
  match shortNamesTable.lookup name with
  | some v => if v = "" then (if popped = "" then name else popped) else v
  | none => if popped = "" then name else popped

/-- The chain `a?.textContent?.trim() || b?.textContent?.trim() || ... || d`:
first present, trimmed, non-empty text wins; otherwise the default. -/
def firstTruthy : List (Option String) → String → String
  | [], d => d
  | none :: rest, d => firstTruthy rest d
  | some s :: rest, d => if jsTrim s = "" then firstTruthy rest d else jsTrim s

/-- `parseDateTimeString`: parse `"Jan 30, 2026, 7:30 PM"`-style text;
the date comes from `toISOString().split('T')[0]` (a UTC rendering), the
time from local `getHours`/`getMinutes`; empty or unparsable input falls
back to today's (UTC-rendered) date and `"TBC"`. -/
def parseDateTimeString (ctx : Ctx) (dateTimeStr : String) : String × String :=
  if dateTimeStr = "" then (formatUTCDate ctx.now, "TBC")
  else
    match jsNewDate ctx.tz dateTimeStr with
    | some t =>
      (formatUTCDate t,
       pad2 (jsGetHours ctx.tz t).toNat ++ ":" ++ pad2 (jsGetMinutes ctx.tz t).toNat)
    | none => (formatUTCDate ctx.now, "TBC")

/-- `getAttribute('src') || undefined` on an optional node. -/
def attrOrUndefined (o : Option String) : Option String :=
  match o with
  | some s => if s = "" then none else some s
  | none => none

/-- The score-validity test of `parseScheduleHTML`:
`homeScoreText && /^\d+$/.test(homeScoreText)` on the trimmed text. -/
def isValidScoreText (s : String) : Bool :=
  s ≠ "" && s.data.all Char.isDigit

/-- Whether a team block's score cell holds valid (trimmed, non-empty,
all-digit) score text. -/
def hasValidScore (side : Option RawTeamEl) : Bool :=
  match (side.bind RawTeamEl.scoreText).map jsTrim with
  | some s => isValidScoreText s
  | none => false

/-- The per-row body of `parseScheduleHTML`'s `forEach`; `idx` is
`matches.length` at push time, i.e. the row index. -/
def parseScheduleRow (ctx : Ctx) (idx : Nat) (matchEl : RawMatchEl) : Match :=
  let matchIdAttr := matchEl.idAttr.getD ""
  let matchId := (findDigitsAfter "extfix_".data matchIdAttr.data).getD ("match-" ++ toString idx)
  let matchClass := matchEl.className
  let status :=
    if jsIncludes matchClass "STATUS_COMPLETE" then MatchStatus.completed
    else if jsIncludes matchClass "STATUS_LIVE" then MatchStatus.live
    else MatchStatus.scheduled
  let homeTeamName := firstTruthy
    [matchEl.homeTeam.bind RawTeamEl.teamNameFull,
     matchEl.homeTeam.bind RawTeamEl.teamNameSpan,
     matchEl.homeTeam.bind RawTeamEl.teamName] "Home"
  let awayTeamName := firstTruthy
    [matchEl.awayTeam.bind RawTeamEl.teamNameFull,
     matchEl.awayTeam.bind RawTeamEl.teamNameSpan,
     matchEl.awayTeam.bind RawTeamEl.teamName] "Away"
  let homeScoreText := (matchEl.homeTeam.bind RawTeamEl.scoreText).map jsTrim
  let awayScoreText := (matchEl.awayTeam.bind RawTeamEl.scoreText).map jsTrim
  let homeScore :=
    match homeScoreText with
    | some s =>
      if isValidScoreText s then some (JSNum.int (Int.ofNat (digitsToNat s.data)))
      else none
    | none => none
  let awayScore :=
    match awayScoreText with
    | some s =>
      if isValidScoreText s then some (JSNum.int (Int.ofNat (digitsToNat s.data)))
      else none
    | none => none
  let homeLink := (matchEl.homeTeam.bind RawTeamEl.linkHref).getD ""
  let awayLink := (matchEl.awayTeam.bind RawTeamEl.linkHref).getD ""
  let homeId := (findDigitsAfter "/team/".data homeLink.data).getD (getShortName homeTeamName)
  let awayId := (findDigitsAfter "/team/".data awayLink.data).getD (getShortName awayTeamName)
  let dateTimeText := firstTruthy [matchEl.dateTimeText] ""
  let dt := parseDateTimeString ctx dateTimeText
  let venue := firstTruthy [matchEl.venueLink, matchEl.venueAnchor] "TBC"
  { id := matchId
    homeTeam :=
      { id := homeId
        name := homeTeamName
        shortName := getShortName homeTeamName
        logo := attrOrUndefined (matchEl.homeTeam.bind RawTeamEl.imgSrc) }
    awayTeam :=
      { id := awayId
        name := awayTeamName
        shortName := getShortName awayTeamName
        logo := attrOrUndefined (matchEl.awayTeam.bind RawTeamEl.imgSrc) }
    homeScore := homeScore
    awayScore := awayScore
    date := dt.1
    time := dt.2
    venue := venue
    status := status }

/-- `parseScheduleHTML` over the document's `.match-wrap` elements. -/
def parseScheduleHTML (ctx : Ctx) (matchElements : List RawMatchEl) : List Match :=
  matchElements.enum.map (fun p => parseScheduleRow ctx p.1 p.2)

end GeniusSportsApi

/-! ## Properties of the merge engine -/

namespace EuroleagueApi

/-- The last element of `l` whose `id` is `k` (the entry a sequence of
`Map.set` calls leaves behind). -/
def findLastById (k : String) : List Match → Option Match
  | [] => none
  | m :: rest =>
    match findLastById k rest with
    | some r => some r
    | none => if m.id = k then some m else none

/-- Every entry's key is its match's id. -/
def Keyed (l : List (String × Match)) : Prop := ∀ e ∈ l, e.1 = e.2.id

/-- The deduplicated entry list `matchMap` built inside
`fetchEuroLeagueMatches` (completed first, then upcoming if absent). -/
def mergedMap (completedMatches upcomingMatches : List Match) : List (String × Match) :=
  insertUpcoming (insertCompleted [] completedMatches) upcomingMatches

end EuroleagueApi

/-! ## Concrete inputs used to evaluate the definitions -/

namespace Examples

/-- A completed game as the V1 results feed reports it. -/
def exCompletedMatch : Match :=
  { id := "E2025_170"
    homeTeam := ⟨"MAD", "Real Madrid", "Real Madrid", none⟩
    awayTeam := ⟨"BAR", "FC Barcelona", "Barcelona", none⟩
    homeScore := some (JSNum.int 95)
    awayScore := some (JSNum.int 88)
    date := "2026-01-10"
    time := "20:00"
    venue := "TBC"
    status := MatchStatus.completed }

/-- The same game as an unplayed stub from the V2 schedule feed. -/
def exUpcomingStub : Match :=
  { id := "E2025_170"
    homeTeam := ⟨"MAD", "Real Madrid", "Real Madrid", none⟩
    awayTeam := ⟨"BAR", "FC Barcelona", "Barcelona", none⟩
    homeScore := none
    awayScore := none
    date := "2026-01-10"
    time := "20:00"
    venue := "WiZink Center"
    status := MatchStatus.scheduled }

/-- A scheduled markup row whose score cells hold placeholders: a
non-breaking space on the home side, an em-dash on the away side. -/
def exPlaceholderRow : GeniusSportsApi.RawMatchEl :=
  { idAttr := some "extfix_2702600"
    className := "match-wrap STATUS_SCHEDULED"
    homeTeam := some { teamNameFull := some "Newcastle Eagles",
                       scoreText := some "\u00A0", linkHref := some "/team/103" }
    awayTeam := some { teamNameFull := some "Sheffield Sharks",
                       scoreText := some "—", linkHref := some "/team/104" }
    dateTimeText := some "Jan 19, 2026, 3:00 PM" }

/-- A markup row with numeric score text but no status token in its
class attribute. -/
def exNoTokenRow : GeniusSportsApi.RawMatchEl :=
  { idAttr := some "extfix_2702601"
    className := "match-wrap"
    homeTeam := some { teamNameFull := some "Alpha City",
                       scoreText := some "92", linkHref := some "/team/105" }
    awayTeam := some { teamNameFull := some "Beta Town",
                       scoreText := some "85", linkHref := some "/team/106" }
    dateTimeText := some "Jan 18, 2026, 7:30 PM" }

/-- A markup row tagged `STATUS_SCHEDULED` whose score cells nonetheless
carry numeric text. -/
def exScoredScheduledRow : GeniusSportsApi.RawMatchEl :=
  { idAttr := some "extfix_2702602"
    className := "match-wrap STATUS_SCHEDULED"
    homeTeam := some { teamNameFull := some "Gamma United",
                       scoreText := some "77", linkHref := some "/team/107" }
    awayTeam := some { teamNameFull := some "Delta Rovers",
                       scoreText := some "70", linkHref := some "/team/108" }
    dateTimeText := some "Jan 20, 2026, 5:00 PM" }

/-- An unplayed V1 XML game that nonetheless carries score elements. -/
def exUnplayedScoredGame : EuroleagueApi.ParsedGame :=
  { gameCode := "E2025_171"
    round := "RS"
    gameDay := 20
    date := "Jan 16, 2026"
    time := "20:00"
    homeTeam := "REAL MADRID"
    homeCode := "MAD"
    homeScore := some (JSNum.int 95)
    awayTeam := "FC BARCELONA"
    awayCode := "BAR"
    awayScore := some (JSNum.int 88)
    played := false }

/-- A `confirmed` (scheduled) V2 game. -/
def exV2Confirmed : EuroleagueApi.V2Game :=
  { id := "x172"
    identifier := "E2025_172"
    code := 172
    date := "2026-01-21T19:00:00.000Z"
    status := "confirmed"
    home := { code := "BAR", name := "FC Barcelona", abbreviatedName := "BAR", score := 0 }
    away := { code := "MAD", name := "Real Madrid", abbreviatedName := "MAD", score := 0 }
    venueName := some "Palau Blaugrana" }

/-- The canonical match `transformV2Game` produces for `exV2Confirmed`
in a UTC environment. -/
def exV2ConfirmedMatch : Match :=
  { id := "E2025_172"
    homeTeam := ⟨"BAR", "FC Barcelona", "BAR", none⟩
    awayTeam := ⟨"MAD", "Real Madrid", "MAD", none⟩
    homeScore := none
    awayScore := none
    date := "2026-01-21"
    time := "19:00"
    venue := "Palau Blaugrana"
    status := MatchStatus.scheduled }

/-- A V2 game whose kickoff is local midnight in a UTC+2 environment. -/
def exV2MidnightGame : EuroleagueApi.V2Game :=
  { id := "x173"
    identifier := "E2025_173"
    code := 173
    date := "2026-01-21T00:00:00+02:00"
    status := "confirmed"
    home := { code := "PAN", name := "Panathinaikos AKTOR Athens", abbreviatedName := "PAO", score := 0 }
    away := { code := "OLY", name := "Olympiacos Piraeus", abbreviatedName := "OLY", score := 0 }
    venueName := some "OAKA" }

/-- A parsed standing row with 15 wins and 3 losses (the XML feed
carries no standings-points element at all). -/
def exStanding : EuroleagueApi.ParsedStanding :=
  { name := "Real Madrid"
    code := "MAD"
    ranking := 1
    totalGames := 18
    wins := 15
    losses := 3
    ptsFor := 1500
    ptsAgainst := 1400
    difference := 100 }

/-- A 200 response whose envelope carries `status := "error"`. -/
def exBadStatusResponse : EuroleagueApi.HttpJsonResponse :=
  { ok := true
    status := 200
    statusText := "OK"
    json := EuroleagueApi.JsonBody.envelope ⟨"error", []⟩ }

end Examples

namespace EuroleagueApi

theorem mapGet_mapSet (k k2 : String) (v : Match) (l : List (String × Match)) :
    mapGet k (mapSet k2 v l) = if k2 = k then some v else mapGet k l := by
  induction l with
  | nil => by_cases h : k2 = k <;> simp [mapSet, mapGet, h]
  | cons e rest ih =>
    by_cases h1 : e.1 = k2
    · by_cases h2 : k2 = k
      · simp [mapSet, mapGet, h1, h2]
      · have h3 : ¬ e.1 = k := by rw [h1]; exact h2
        simp [mapSet, mapGet, h1, h2, h3]
    · by_cases h2 : k2 = k
      · subst h2
        simp [mapSet, mapGet, h1, ih]
      · simp [mapSet, mapGet, h1, h2, ih]



theorem mapHas_iff_mem_keys (k : String) (l : List (String × Match)) :
    mapHas k l = true ↔ k ∈ l.map Prod.fst := by
  induction l with
  | nil => simp [mapHas]
  | cons e rest ih =>
    simp only [mapHas, Bool.or_eq_true, decide_eq_true_eq, List.map_cons, List.mem_cons, ih]
    constructor
    · rintro (h | h)
      · exact Or.inl h.symm
      · exact Or.inr h
    · rintro (h | h)
      · exact Or.inl h.symm
      · exact Or.inr h

theorem mem_mapSet (k : String) (v : Match) (l : List (String × Match))
    (e2 : String × Match) (h : e2 ∈ mapSet k v l) : e2 = (k, v) ∨ e2 ∈ l := by
  induction l with
  | nil => simpa [mapSet] using h
  | cons e rest ih =>
    by_cases h1 : e.1 = k
    · simp only [mapSet, h1, if_true] at h
      rcases List.mem_cons.mp h with h2 | h2
      · exact Or.inl h2
      · exact Or.inr (List.mem_cons_of_mem e h2)
    · simp only [mapSet, h1, if_false] at h
      rcases List.mem_cons.mp h with h2 | h2
      · exact Or.inr (h2 ▸ List.mem_cons_self e rest)
      · rcases ih h2 with h3 | h3
        · exact Or.inl h3
        · exact Or.inr (List.mem_cons_of_mem e h3)

theorem mapGet_mem (k : String) (v : Match) (l : List (String × Match))
    (h : mapGet k l = some v) : (k, v) ∈ l := by
  induction l with
  | nil => simp [mapGet] at h
  | cons e rest ih =>
    by_cases h1 : e.1 = k
    · simp only [mapGet, h1, if_true, Option.some.injEq] at h
      have he : e = (k, v) := by
        obtain ⟨a, b⟩ := e
        simp_all
      rw [he]
      exact List.mem_cons_self _ _
    · simp only [mapGet, h1, if_false] at h
      exact List.mem_cons_of_mem e (ih h)

theorem keys_mapSet_of_has (k : String) (v : Match) (l : List (String × Match))
    (h : mapHas k l = true) : (mapSet k v l).map Prod.fst = l.map Prod.fst := by
  induction l with
  | nil => simp [mapHas] at h
  | cons e rest ih =>
    by_cases h1 : e.1 = k
    · simp [mapSet, h1]
    · simp only [mapHas, decide_eq_true_eq, Bool.or_eq_true, h1, false_or] at h
      simp [mapSet, h1, ih h]

theorem keys_mapSet_of_not_has (k : String) (v : Match) (l : List (String × Match))
    (h : mapHas k l = false) : (mapSet k v l).map Prod.fst = l.map Prod.fst ++ [k] := by
  induction l with
  | nil => simp [mapSet]
  | cons e rest ih =>
    simp only [mapHas, Bool.or_eq_false_iff, decide_eq_false_iff_not] at h
    simp [mapSet, h.1, ih h.2]

theorem nodup_keys_mapSet (k : String) (v : Match) (l : List (String × Match))
    (h : (l.map Prod.fst).Nodup) : ((mapSet k v l).map Prod.fst).Nodup := by
  cases hh : mapHas k l with
  | true => rw [keys_mapSet_of_has k v l hh]; exact h
  | false =>
    rw [keys_mapSet_of_not_has k v l hh]
    have hk : k ∉ l.map Prod.fst := fun hmem =>
      by simp [(mapHas_iff_mem_keys k l).mpr hmem] at hh
    simp [List.nodup_append, h, hk]

theorem keyed_mapSet (k : String) (v : Match) (l : List (String × Match))
    (hkv : k = v.id) (h : Keyed l) : Keyed (mapSet k v l) := by
  intro e2 he2
  rcases mem_mapSet k v l e2 he2 with h1 | h1
  · rw [h1]; exact hkv
  · exact h e2 h1

theorem keyed_insertCompleted (acc : List (String × Match)) (ms : List Match)
    (h : Keyed acc) : Keyed (insertCompleted acc ms) := by
  induction ms generalizing acc with
  | nil => exact h
  | cons m rest ih =>
    exact ih (mapSet m.id m acc) (keyed_mapSet m.id m acc rfl h)

theorem keyed_insertUpcoming (acc : List (String × Match)) (ms : List Match)
    (h : Keyed acc) : Keyed (insertUpcoming acc ms) := by
  induction ms generalizing acc with
  | nil => exact h
  | cons m rest ih =>
    by_cases hh : mapHas m.id acc = true
    · simpa [insertUpcoming, hh] using ih acc h
    · simpa [insertUpcoming, hh] using
        ih (mapSet m.id m acc) (keyed_mapSet m.id m acc rfl h)

theorem nodup_keys_insertCompleted (acc : List (String × Match)) (ms : List Match)
    (h : (acc.map Prod.fst).Nodup) : ((insertCompleted acc ms).map Prod.fst).Nodup := by
  induction ms generalizing acc with
  | nil => exact h
  | cons m rest ih =>
    exact ih (mapSet m.id m acc) (nodup_keys_mapSet m.id m acc h)

theorem nodup_keys_insertUpcoming (acc : List (String × Match)) (ms : List Match)
    (h : (acc.map Prod.fst).Nodup) : ((insertUpcoming acc ms).map Prod.fst).Nodup := by
  induction ms generalizing acc with
  | nil => exact h
  | cons m rest ih =>
    by_cases hh : mapHas m.id acc = true
    · simpa [insertUpcoming, hh] using ih acc h
    · simpa [insertUpcoming, hh] using
        ih (mapSet m.id m acc) (nodup_keys_mapSet m.id m acc h)

theorem mapGet_insertCompleted (k : String) (acc : List (String × Match)) (ms : List Match) :
    mapGet k (insertCompleted acc ms) =
      match findLastById k ms with
      | some m => some m
      | none => mapGet k acc := by
  induction ms generalizing acc with
  | nil => simp [insertCompleted, findLastById]
  | cons m rest ih =>
    have step : insertCompleted acc (m :: rest) = insertCompleted (mapSet m.id m acc) rest := rfl
    rw [step, ih (mapSet m.id m acc)]
    cases hfind : findLastById k rest with
    | some r => simp [findLastById, hfind]
    | none =>
      by_cases hid : m.id = k <;>
        simp [findLastById, hfind, hid, mapGet_mapSet]

theorem mapGet_insertUpcoming_of_isSome (k : String) (acc : List (String × Match))
    (ms : List Match) (h : (mapGet k acc).isSome = true) :
    mapGet k (insertUpcoming acc ms) = mapGet k acc := by
  induction ms generalizing acc with
  | nil => rfl
  | cons m rest ih =>
    by_cases hh : mapHas m.id acc = true
    · simpa [insertUpcoming, hh] using ih acc h
    · have hid : ¬ m.id = k := by
        intro he
        rw [he] at hh
        rw [mapHas_iff_mem_keys] at hh
        rcases Option.isSome_iff_exists.mp h with ⟨v, hv⟩
        exact hh (List.mem_map_of_mem Prod.fst (mapGet_mem k v acc hv))
      have hget : mapGet k (mapSet m.id m acc) = mapGet k acc := by
        rw [mapGet_mapSet]; simp [hid]
      have : insertUpcoming acc (m :: rest) = insertUpcoming (mapSet m.id m acc) rest := by
        simp [insertUpcoming, hh]
      rw [this, ih (mapSet m.id m acc) (hget ▸ h), hget]

theorem findLastById_sound (k : String) (l : List Match) (r : Match)
    (h : findLastById k l = some r) : r ∈ l ∧ r.id = k := by
  induction l with
  | nil => simp [findLastById] at h
  | cons m rest ih =>
    cases hfind : findLastById k rest with
    | some r2 =>
      simp only [findLastById, hfind, Option.some.injEq] at h
      rcases ih (h ▸ hfind) with ⟨hmem, hid⟩
      exact ⟨List.mem_cons_of_mem m hmem, hid⟩
    | none =>
      simp only [findLastById, hfind] at h
      by_cases hid : m.id = k
      · simp only [hid, if_true, Option.some.injEq] at h
        exact ⟨h ▸ List.mem_cons_self m rest, h ▸ hid⟩
      · simp [hid] at h

theorem findLastById_spec (k : String) (l : List Match) (h : ∃ m ∈ l, m.id = k) :
    ∃ m, findLastById k l = some m ∧ m ∈ l ∧ m.id = k := by
  induction l with
  | nil => simp at h
  | cons m rest ih =>
    by_cases hr : ∃ m2 ∈ rest, m2.id = k
    · rcases ih hr with ⟨r, hfind, hmem, hid⟩
      exact ⟨r, by simp [findLastById, hfind], List.mem_cons_of_mem m hmem, hid⟩
    · have hm : m.id = k := by
        rcases h with ⟨m2, hm2mem, hm2id⟩
        rcases List.mem_cons.mp hm2mem with he | he
        · exact he ▸ hm2id
        · exact absurd ⟨m2, he, hm2id⟩ hr
      have hnone : findLastById k rest = none := by
        cases hfind : findLastById k rest with
        | none => rfl
        | some r =>
          have hs := findLastById_sound k rest r hfind
          exact absurd ⟨r, hs.1, hs.2⟩ hr
      exact ⟨m, by simp [findLastById, hnone, hm], List.mem_cons_self m rest, hm⟩

theorem mergedMap_keyed (completedMatches upcomingMatches : List Match) :
    Keyed (mergedMap completedMatches upcomingMatches) :=
  keyed_insertUpcoming _ _
    (keyed_insertCompleted [] completedMatches (by intro e he; simp at he))

theorem mergedMap_keys_nodup (completedMatches upcomingMatches : List Match) :
    ((mergedMap completedMatches upcomingMatches).map Prod.fst).Nodup :=
  nodup_keys_insertUpcoming _ _
    (nodup_keys_insertCompleted [] completedMatches (by simp))

theorem mergedMap_values_ids_nodup (completedMatches upcomingMatches : List Match) :
    (((mergedMap completedMatches upcomingMatches).map Prod.snd).map Match.id).Nodup := by
  have hmapeq : ((mergedMap completedMatches upcomingMatches).map Prod.snd).map Match.id =
      (mergedMap completedMatches upcomingMatches).map Prod.fst := by
    rw [List.map_map]
    exact List.map_congr_left
      (fun e he => (mergedMap_keyed completedMatches upcomingMatches e he).symm)
  rw [hmapeq]
  exact mergedMap_keys_nodup completedMatches upcomingMatches

theorem fetchFrom_perm_mergedMap (tz : Int) (completedMatches upcomingMatches : List Match) :
    (fetchEuroLeagueMatchesFrom tz completedMatches upcomingMatches).Perm
      ((mergedMap completedMatches upcomingMatches).map Prod.snd) :=
  List.perm_insertionSort _ _

theorem fetchFrom_ids_nodup (tz : Int) (completedMatches upcomingMatches : List Match) :
    ((fetchEuroLeagueMatchesFrom tz completedMatches upcomingMatches).map Match.id).Nodup :=
  (((fetchFrom_perm_mergedMap tz completedMatches upcomingMatches).map Match.id).nodup_iff).mpr
    (mergedMap_values_ids_nodup completedMatches upcomingMatches)

/-- C1. Merge precedence: whenever a match id occurs both in the
completed-results list (inserted first) and in the schedule list
(inserted second), the list produced by the merge + sort body of
`fetchEuroLeagueMatches` contains exactly one entry with that id, and
that entry is a member of the completed-results list — a
schedule-oriented record never overwrites a results-oriented one. -/
theorem euroMerge_results_precedence (tz : Int)
    (completedMatches upcomingMatches : List Match) (gid : String)
    (hc : ∃ m ∈ completedMatches, m.id = gid) (_hu : ∃ m ∈ upcomingMatches, m.id = gid) :
    ∃ m, m ∈ completedMatches ∧ m.id = gid ∧
      m ∈ fetchEuroLeagueMatchesFrom tz completedMatches upcomingMatches ∧
      ∀ m2 ∈ fetchEuroLeagueMatchesFrom tz completedMatches upcomingMatches,
        m2.id = gid → m2 = m := by
  obtain ⟨m, hfind, hmem, hid⟩ := findLastById_spec gid completedMatches hc
  have hget1 : mapGet gid (insertCompleted [] completedMatches) = some m := by
    rw [mapGet_insertCompleted, hfind]
  have hget2 : mapGet gid (mergedMap completedMatches upcomingMatches) = some m := by
    have hs := mapGet_insertUpcoming_of_isSome gid (insertCompleted [] completedMatches)
      upcomingMatches (by rw [hget1]; rfl)
    rw [mergedMap, hs, hget1]
  have hentry : (gid, m) ∈ mergedMap completedMatches upcomingMatches :=
    mapGet_mem _ _ _ hget2
  have hvals : m ∈ (mergedMap completedMatches upcomingMatches).map Prod.snd :=
    List.mem_map_of_mem Prod.snd hentry
  have hperm := fetchFrom_perm_mergedMap tz completedMatches upcomingMatches
  have hout : m ∈ fetchEuroLeagueMatchesFrom tz completedMatches upcomingMatches :=
    hperm.mem_iff.mpr hvals
  refine ⟨m, hmem, hid, hout, ?_⟩
  intro m2 hm2 hm2id
  have hnodup := (hperm.map Match.id).nodup_iff.mpr
    (mergedMap_values_ids_nodup completedMatches upcomingMatches)
  exact List.inj_on_of_nodup_map hnodup hm2 hout (by rw [hm2id, hid])

/-- Witness for C1 at the XML/JSON overlap scenario of the spec: the
results feed reports `E2025_170` as played 95–88, the schedule feed
still carries its unplayed stub. -/
theorem euroMerge_results_precedence_witness :
    ∃ m, m ∈ [Examples.exCompletedMatch] ∧ m.id = "E2025_170" ∧
      m ∈ fetchEuroLeagueMatchesFrom 0 [Examples.exCompletedMatch] [Examples.exUpcomingStub] ∧
      ∀ m2 ∈ fetchEuroLeagueMatchesFrom 0 [Examples.exCompletedMatch] [Examples.exUpcomingStub],
        m2.id = "E2025_170" → m2 = m :=
  euroMerge_results_precedence 0 [Examples.exCompletedMatch] [Examples.exUpcomingStub]
    "E2025_170"
    ⟨Examples.exCompletedMatch, List.mem_singleton.mpr rfl, rfl⟩
    ⟨Examples.exUpcomingStub, List.mem_singleton.mpr rfl, rfl⟩

/-- C10. Merged-list id uniqueness: for every pair of input match lists,
the list returned by the merge + sort body of `fetchEuroLeagueMatches`
has pairwise-distinct `Match.id` values, however many duplicate ids the
two feeds contain. -/
theorem merged_ids_distinct (tz : Int) (completedMatches upcomingMatches : List Match) :
    ((fetchEuroLeagueMatchesFrom tz completedMatches upcomingMatches).map Match.id).Pairwise
      (fun a b => a ≠ b) :=
  fetchFrom_ids_nodup tz completedMatches upcomingMatches

/-- C4 (amended). When the underlying fetch of a per-feed operation
fails with a typed error, the operation does **not** propagate it: both
`fetchCompletedMatches` and `fetchUpcomingMatches` catch the failure and
return the empty list. -/
theorem feed_failure_returns_empty (ctx : Ctx) (netXml : NetResult HttpTextResponse)
    (domParse : String → XMLDoc) (netJson : NetResult HttpJsonResponse)
    (eXml : APIError) (eJson : FetchError)
    (hxml : fetchXMLFromEuroLeague netXml domParse = Except.error eXml)
    (hjson : fetchJSONFromEuroLeagueV2 netJson = Except.error eJson) :
    fetchCompletedMatches ctx netXml domParse = [] ∧
    fetchUpcomingMatches ctx netJson = [] := by
  constructor
  · unfold fetchCompletedMatches
    rw [hxml]
  · unfold fetchUpcomingMatches
    rw [hjson]

/-- Witness for the amended C4 at a concrete network failure. -/
theorem feed_failure_returns_empty_witness :
    fetchCompletedMatches ⟨0, 0⟩ (NetResult.failure "Network request failed")
      (fun _ => emptyXMLDoc) = [] ∧
    fetchUpcomingMatches ⟨0, 0⟩ (NetResult.failure "Network request failed") = [] :=
  feed_failure_returns_empty ⟨0, 0⟩ (NetResult.failure "Network request failed")
    (fun _ => emptyXMLDoc) (NetResult.failure "Network request failed")
    ⟨"EuroLeague API network error: Network request failed", none⟩
    (FetchError.apiError "EuroLeague V2 API network error: Network request failed" none)
    rfl rfl

/-- C4 counterexample: on a network failure the underlying fetch does
raise a typed error, yet `fetchCompletedMatches` / `fetchUpcomingMatches`
return the empty list instead of raising. -/
theorem feed_failure_returns_empty_counterexample :
    (∃ e, fetchXMLFromEuroLeague (NetResult.failure "Network request failed")
        (fun _ => emptyXMLDoc) = Except.error e) ∧
    fetchCompletedMatches ⟨0, 0⟩ (NetResult.failure "Network request failed")
      (fun _ => emptyXMLDoc) = [] ∧
    (∃ e, fetchJSONFromEuroLeagueV2 (NetResult.failure "Network request failed") =
        Except.error e) ∧
    fetchUpcomingMatches ⟨0, 0⟩ (NetResult.failure "Network request failed") = [] :=
  ⟨⟨⟨"EuroLeague API network error: Network request failed", none⟩, rfl⟩, rfl,
   ⟨FetchError.apiError "EuroLeague V2 API network error: Network request failed" none, rfl⟩, rfl⟩

/-- C6 (amended, positive part). `transformV2Game` emits scores only for
completed matches: a scheduled result carries no `homeScore`/`awayScore`. -/
theorem v2_scheduled_has_no_scores (ctx : Ctx) (game : V2Game) (m : Match)
    (htrans : transformV2Game ctx game = some m)
    (hsched : m.status = MatchStatus.scheduled) :
    m.homeScore = none ∧ m.awayScore = none := by
  unfold transformV2Game at htrans
  cases hd : jsNewDate ctx.tz game.date with
  | none =>
    rw [hd] at htrans
    exact absurd htrans (by simp)
  | some t =>
    rw [hd] at htrans
    simp only [Option.some.injEq] at htrans
    by_cases hs : game.status = "result"
    · rw [← htrans] at hsched
      simp [hs] at hsched
    · rw [← htrans]
      simp [hs]

/-- Witness for the amended C6: the `confirmed` V2 game maps to a
scheduled match with both scores absent. -/
theorem v2_scheduled_has_no_scores_witness :
    Examples.exV2ConfirmedMatch.homeScore = none ∧
    Examples.exV2ConfirmedMatch.awayScore = none :=
  v2_scheduled_has_no_scores ⟨0, 0⟩ Examples.exV2Confirmed Examples.exV2ConfirmedMatch
    (by decide) (by decide)

/-- C8. Standings points derivation: every parsed XML standing row (the
feed carries no standings-points element, so none reports one) yields
`points = 2 * won + 1 * lost`; in particular 15 wins and 3 losses give
33 points. -/
theorem standings_points_derivation :
    (∀ standing : ParsedStanding,
      (transformParsedStanding standing).points = 2 * standing.wins + 1 * standing.losses) ∧
    (transformParsedStanding Examples.exStanding).points = 33 := by
  constructor
  · intro standing
    have h : (transformParsedStanding standing).points = standing.wins * 2 + standing.losses :=
      rfl
    rw [h]
    ring
  · decide

/-- C9. JSON discriminator validation: a 200 response whose parsed body
is `null` or whose `status` is not `"success"` makes
`fetchJSONFromEuroLeagueV2` raise the typed `APIError` (and a non-2xx
response raises it even earlier); the payload is never returned. -/
theorem v2_discriminator_rejected (r : HttpJsonResponse)
    (h : r.json = JsonBody.null ∨
      ∃ env, r.json = JsonBody.envelope env ∧ env.status ≠ "success") :
    ∃ msg code, fetchJSONFromEuroLeagueV2 (NetResult.success r) =
      Except.error (FetchError.apiError msg code) := by
  cases hok : r.ok with
  | false =>
    refine ⟨"EuroLeague V2 API request failed: " ++ toString r.status ++ " " ++ r.statusText,
      some r.status, ?_⟩
    simp [fetchJSONFromEuroLeagueV2, hok]
  | true =>
    rcases h with hnull | ⟨env, henv, hst⟩
    · refine ⟨"Invalid response from EuroLeague V2 API", none, ?_⟩
      simp [fetchJSONFromEuroLeagueV2, hok, hnull]
    · refine ⟨"Invalid response from EuroLeague V2 API", none, ?_⟩
      simp [fetchJSONFromEuroLeagueV2, hok, henv, hst]

/-- Witness for C9 at a 200 response whose envelope status is `"error"`. -/
theorem v2_discriminator_rejected_witness :
    ∃ msg code, fetchJSONFromEuroLeagueV2 (NetResult.success Examples.exBadStatusResponse) =
      Except.error (FetchError.apiError msg code) :=
  v2_discriminator_rejected Examples.exBadStatusResponse
    (Or.inr ⟨⟨"error", []⟩, rfl, by decide⟩)

end EuroleagueApi

namespace GeniusSportsApi

theorem parseScheduleRow_homeScore (ctx : Ctx) (idx : Nat) (el : RawMatchEl) :
    (parseScheduleRow ctx idx el).homeScore =
      match (el.homeTeam.bind RawTeamEl.scoreText).map jsTrim with
      | some s =>
        if isValidScoreText s then some (JSNum.int (Int.ofNat (digitsToNat s.data)))
        else none
      | none => none :=
  rfl

theorem parseScheduleRow_awayScore (ctx : Ctx) (idx : Nat) (el : RawMatchEl) :
    (parseScheduleRow ctx idx el).awayScore =
      match (el.awayTeam.bind RawTeamEl.scoreText).map jsTrim with
      | some s =>
        if isValidScoreText s then some (JSNum.int (Int.ofNat (digitsToNat s.data)))
        else none
      | none => none :=
  rfl

theorem parseScheduleRow_mem (ctx : Ctx) (els : List RawMatchEl) (idx : Nat)
    (el : RawMatchEl) (hmem : (idx, el) ∈ els.enum) :
    parseScheduleRow ctx idx el ∈ parseScheduleHTML ctx els := by
  have h : (fun p : Nat × RawMatchEl => parseScheduleRow ctx p.1 p.2) (idx, el) ∈
      els.enum.map (fun p => parseScheduleRow ctx p.1 p.2) :=
    List.mem_map_of_mem _ hmem
  simpa [parseScheduleHTML] using h

/-- C2. Score placeholder rejection: for a markup row whose score cell
does not hold non-empty all-digit text after trimming (e.g. a
non-breaking space or em-dash placeholder, or a missing cell), the
emitted match's corresponding score field is absent — never a fabricated
number. -/
theorem score_placeholder_rejected (ctx : Ctx) (els : List RawMatchEl) (idx : Nat)
    (el : RawMatchEl) (hmem : (idx, el) ∈ els.enum) :
    (hasValidScore el.homeTeam = false → (parseScheduleRow ctx idx el).homeScore = none) ∧
    (hasValidScore el.awayTeam = false → (parseScheduleRow ctx idx el).awayScore = none) ∧
    parseScheduleRow ctx idx el ∈ parseScheduleHTML ctx els := by
  refine ⟨?_, ?_, parseScheduleRow_mem ctx els idx el hmem⟩
  · intro hhome
    rw [parseScheduleRow_homeScore]
    unfold hasValidScore at hhome
    cases hb : (el.homeTeam.bind RawTeamEl.scoreText).map jsTrim with
    | none => rfl
    | some s =>
      rw [hb] at hhome
      simpa using hhome
  · intro haway
    rw [parseScheduleRow_awayScore]
    unfold hasValidScore at haway
    cases hb : (el.awayTeam.bind RawTeamEl.scoreText).map jsTrim with
    | none => rfl
    | some s =>
      rw [hb] at haway
      simpa using haway

/-- Witness for C2 at a scheduled row whose home score cell is a
non-breaking space and whose away score cell is an em-dash. -/
theorem score_placeholder_rejected_witness :
    (parseScheduleRow ⟨0, 0⟩ 0 Examples.exPlaceholderRow).homeScore = none ∧
    (parseScheduleRow ⟨0, 0⟩ 0 Examples.exPlaceholderRow).awayScore = none ∧
    parseScheduleRow ⟨0, 0⟩ 0 Examples.exPlaceholderRow ∈
      parseScheduleHTML ⟨0, 0⟩ [Examples.exPlaceholderRow] :=
  let h := score_placeholder_rejected ⟨0, 0⟩ [Examples.exPlaceholderRow] 0
    Examples.exPlaceholderRow (by decide)
  ⟨h.1 (by decide), h.2.1 (by decide), h.2.2⟩

/-- C5 (amended). Markup status inference uses only the class tokens: a
class containing `STATUS_COMPLETE` yields `completed`; otherwise one
containing `STATUS_LIVE` yields `live`; otherwise the status is
`scheduled` — the score text has no influence on the status. -/
theorem status_from_class_tokens (ctx : Ctx) (els : List RawMatchEl) (idx : Nat)
    (el : RawMatchEl) (hmem : (idx, el) ∈ els.enum) :
    parseScheduleRow ctx idx el ∈ parseScheduleHTML ctx els ∧
    (parseScheduleRow ctx idx el).status =
      (if jsIncludes el.className "STATUS_COMPLETE" then MatchStatus.completed
       else if jsIncludes el.className "STATUS_LIVE" then MatchStatus.live
       else MatchStatus.scheduled) :=
  ⟨parseScheduleRow_mem ctx els idx el hmem, rfl⟩

/-- Witness for the amended C5 at a row with digit scores but no status
token, which stays `scheduled`. -/
theorem status_from_class_tokens_witness :
    parseScheduleRow ⟨0, 0⟩ 0 Examples.exNoTokenRow ∈
      parseScheduleHTML ⟨0, 0⟩ [Examples.exNoTokenRow] ∧
    (parseScheduleRow ⟨0, 0⟩ 0 Examples.exNoTokenRow).status =
      (if jsIncludes Examples.exNoTokenRow.className "STATUS_COMPLETE" then MatchStatus.completed
       else if jsIncludes Examples.exNoTokenRow.className "STATUS_LIVE" then MatchStatus.live
       else MatchStatus.scheduled) :=
  status_from_class_tokens ⟨0, 0⟩ [Examples.exNoTokenRow] 0 Examples.exNoTokenRow (by decide)

/-- C5 counterexample: a row whose class carries no status token but
whose score cells are both all-digit is emitted as `scheduled` (with
its scores), not `completed` as the claim's score-based fallback states. -/
theorem status_ignores_scores_counterexample :
    (parseScheduleHTML ⟨0, 0⟩ [Examples.exNoTokenRow]).map Match.status =
      [MatchStatus.scheduled] ∧
    (parseScheduleHTML ⟨0, 0⟩ [Examples.exNoTokenRow]).map Match.homeScore =
      [some (JSNum.int 92)] ∧
    (parseScheduleHTML ⟨0, 0⟩ [Examples.exNoTokenRow]).map Match.awayScore =
      [some (JSNum.int 85)] := by
  refine ⟨?_, ?_, ?_⟩ <;> decide

end GeniusSportsApi

/-- C6 counterexample: both the markup parser and the V1 XML transform
can emit a `scheduled` match that carries scores — a `STATUS_SCHEDULED`
row with digit score cells keeps its scores, and an unplayed future V1
game with score elements keeps its scores. -/
theorem scores_on_scheduled_counterexample :
    ((GeniusSportsApi.parseScheduleHTML ⟨0, 0⟩ [Examples.exScoredScheduledRow]).map
        (fun m => (m.status, m.homeScore, m.awayScore)) =
      [(MatchStatus.scheduled, some (JSNum.int 77), some (JSNum.int 70))]) ∧
    (EuroleagueApi.transformParsedGame ⟨0, 0⟩ Examples.exUnplayedScoredGame).status =
      MatchStatus.scheduled ∧
    (EuroleagueApi.transformParsedGame ⟨0, 0⟩ Examples.exUnplayedScoredGame).homeScore =
      some (JSNum.int 95) := by
  refine ⟨?_, ?_, ?_⟩ <;> decide

/-- C3. The date normalizers compute `Match.date` by formatting the
timestamp in UTC (`toISOString`), not in local time: a V2 timestamp at
local midnight in a UTC+2 environment is emitted as the previous
calendar date, and a Genius Sports date-time at 7:30 PM local in a
UTC-5 environment is emitted as the next calendar date — both differ
from the local calendar date the spec (and the functions' own doc
comments) require. -/
theorem date_normalization_utc_shift :
    ((EuroleagueApi.transformV2Game ⟨120, 0⟩ Examples.exV2MidnightGame).map Match.date =
      some "2026-01-20") ∧
    (∃ t, jsNewDate 120 "2026-01-21T00:00:00+02:00" = some t ∧
      specLocalCalendarDate 120 t = "2026-01-21") ∧
    ((GeniusSportsApi.parseDateTimeString ⟨-300, 0⟩ "Jan 30, 2026, 7:30 PM").1 =
      "2026-01-31") ∧
    (∃ t, jsNewDate (-300) "Jan 30, 2026, 7:30 PM" = some t ∧
      specLocalCalendarDate (-300) t = "2026-01-30") := by
  refine ⟨by decide, ⟨1768946400000, by decide, by decide⟩, by decide,
    ⟨1769819400000, by decide, by decide⟩⟩

/-- C7 counterexample: `"Alpha Beta"` misses both tables; the EuroLeague
adapter returns the **first** token `"Alpha"`, not the last token
`"Beta"`; and for `"AS Monaco"` (a miss in the Genius Sports table) the
Genius Sports adapter returns `"Monaco"`, not the claimed first-two-token
join `"AS Monaco"`. -/
theorem shortname_fallback_counterexample :
    EuroleagueApi.shortNamesTable.lookup "Alpha Beta" = none ∧
    EuroleagueApi.getShortName "Alpha Beta" = "Alpha" ∧
    "Alpha" ≠ "Beta" ∧
    GeniusSportsApi.shortNamesTable.lookup "AS Monaco" = none ∧
    GeniusSportsApi.getShortName "AS Monaco" = "Monaco" ∧
    "Monaco" ≠ "AS Monaco" := by
  refine ⟨?_, ?_, ?_, ?_, ?_, ?_⟩ <;> decide

/-- C7 (amended). On a table miss the EuroLeague adapter falls back to
the **first** space-delimited token (the whole name when single-word;
the first two tokens joined when the first token is at most 3
characters), while the Genius Sports adapter falls back to the **last**
token (the whole name when that token is empty) with no short-first-token
rule. -/
theorem shortname_fallback_amended (name : String) :
    (EuroleagueApi.shortNamesTable.lookup name = none →
      EuroleagueApi.getShortName name =
        (let words := jsSplitSpace name
         if words.length = 1 then name
         else if (words.headD "").length ≤ 3 then (words.headD "") ++ " " ++ (words.getD 1 "")
         else words.headD "")) ∧
    (GeniusSportsApi.shortNamesTable.lookup name = none →
      GeniusSportsApi.getShortName name =
        (let popped := (jsSplitSpace name).getLastD ""
         if popped = "" then name else popped)) := by
  constructor
  · intro h
    unfold EuroleagueApi.getShortName
    rw [h]
  · intro h
    unfold GeniusSportsApi.getShortName
    rw [h]

/-- Witness for the amended C7 at the table miss `"Gamma Delta"`. -/
theorem shortname_fallback_amended_witness :
    EuroleagueApi.getShortName "Gamma Delta" = "Gamma" ∧
    GeniusSportsApi.getShortName "Gamma Delta" = "Delta" := by
  constructor
  · rw [(shortname_fallback_amended "Gamma Delta").1 (by decide)]
    decide
  · rw [(shortname_fallback_amended "Gamma Delta").2 (by decide)]
    decide

end SBL
